import Mathlib

/-!
Verification of the prompt-repository editor (`streamlit_app.py`).

The program persists a JSON document of shape
`{"APPS": [{"name": str, "prompts": [{"name": str, "content": [str, ...]}]}]}`
as timestamp-named blobs `prompt_repo_<YYYYMMDD_HHMMSS>.json` in an object
store, caches the latest snapshot, and lets the user edit prompt contents and
republish.

The embedding below models:
 * JSON values as an inductive `Json` (numbers carried as `Int`; no claim
   touches numeric payloads),
 * Python `dict` lookup/assignment and `list` indexing (including negative
   indices) on that type,
 * Python `str.split('\n')`, `'\n'.join`, `str.strip()` and `max` over
   strings,
 * the blob store as an association list from blob name to parse outcome
   (`some j` = bytes that `json.loads` accepts giving `j`; `none` = bytes
   that fail to parse),
 * external faults (network/list/fetch failures) as `Except Unit` outcomes
   supplied to the function, mirroring the `try/except` structure,
 * the Streamlit session (`st.session_state.prompt_data`), the
   `@st.cache_data(ttl=300)` cache and the two upload-button handlers as a
   state machine on `AppState`.
-/

/-- JSON values as Python's `json` module produces them.  Numbers are carried
as `Int`: no claim in scope inspects numeric payloads arithmetically. -/
inductive Json where
  | null : Json
  | bool : Bool → Json
  | num : Int → Json
  | str : String → Json
  | arr : List Json → Json
  | obj : List (String × Json) → Json
deriving Repr

mutual

/-- Decidable structural equality for `Json` (Python `==` on parsed JSON). -/
def Json.decEq : (a b : Json) → Decidable (a = b)
  | .null, .null => isTrue rfl
  | .null, .bool _ => isFalse (fun h => Json.noConfusion h)
  | .null, .num _ => isFalse (fun h => Json.noConfusion h)
  | .null, .str _ => isFalse (fun h => Json.noConfusion h)
  | .null, .arr _ => isFalse (fun h => Json.noConfusion h)
  | .null, .obj _ => isFalse (fun h => Json.noConfusion h)
  | .bool _, .null => isFalse (fun h => Json.noConfusion h)
  | .bool a, .bool b =>
      if h : a = b then isTrue (by rw [h]) else isFalse (by intro hc; injection hc; contradiction)
  | .bool _, .num _ => isFalse (fun h => Json.noConfusion h)
  | .bool _, .str _ => isFalse (fun h => Json.noConfusion h)
  | .bool _, .arr _ => isFalse (fun h => Json.noConfusion h)
  | .bool _, .obj _ => isFalse (fun h => Json.noConfusion h)
  | .num _, .null => isFalse (fun h => Json.noConfusion h)
  | .num _, .bool _ => isFalse (fun h => Json.noConfusion h)
  | .num a, .num b =>
      if h : a = b then isTrue (by rw [h]) else isFalse (by intro hc; injection hc; contradiction)
  | .num _, .str _ => isFalse (fun h => Json.noConfusion h)
  | .num _, .arr _ => isFalse (fun h => Json.noConfusion h)
  | .num _, .obj _ => isFalse (fun h => Json.noConfusion h)
  | .str _, .null => isFalse (fun h => Json.noConfusion h)
  | .str _, .bool _ => isFalse (fun h => Json.noConfusion h)
  | .str _, .num _ => isFalse (fun h => Json.noConfusion h)
  | .str a, .str b =>
      if h : a = b then isTrue (by rw [h]) else isFalse (by intro hc; injection hc; contradiction)
  | .str _, .arr _ => isFalse (fun h => Json.noConfusion h)
  | .str _, .obj _ => isFalse (fun h => Json.noConfusion h)
  | .arr _, .null => isFalse (fun h => Json.noConfusion h)
  | .arr _, .bool _ => isFalse (fun h => Json.noConfusion h)
  | .arr _, .num _ => isFalse (fun h => Json.noConfusion h)
  | .arr _, .str _ => isFalse (fun h => Json.noConfusion h)
  | .arr a, .arr b =>
      match Json.decEqList a b with
      | isTrue h => isTrue (by rw [h])
      | isFalse h => isFalse (by intro hc; injection hc; contradiction)
  | .arr _, .obj _ => isFalse (fun h => Json.noConfusion h)
  | .obj _, .null => isFalse (fun h => Json.noConfusion h)
  | .obj _, .bool _ => isFalse (fun h => Json.noConfusion h)
  | .obj _, .num _ => isFalse (fun h => Json.noConfusion h)
  | .obj _, .str _ => isFalse (fun h => Json.noConfusion h)
  | .obj _, .arr _ => isFalse (fun h => Json.noConfusion h)
  | .obj a, .obj b =>
      match Json.decEqFields a b with
      | isTrue h => isTrue (by rw [h])
      | isFalse h => isFalse (by intro hc; injection hc; contradiction)

def Json.decEqList : (a b : List Json) → Decidable (a = b)
  | [], [] => isTrue rfl
  | [], _ :: _ => isFalse (fun h => List.noConfusion h)
  | _ :: _, [] => isFalse (fun h => List.noConfusion h)
  | a :: as, b :: bs =>
      match Json.decEq a b, Json.decEqList as bs with
      | isTrue h1, isTrue h2 => isTrue (by rw [h1, h2])
      | isFalse h1, _ => isFalse (by intro hc; injection hc; contradiction)
      | isTrue _, isFalse h2 => isFalse (by intro hc; injection hc; contradiction)

def Json.decEqFields : (a b : List (String × Json)) → Decidable (a = b)
  | [], [] => isTrue rfl
  | [], _ :: _ => isFalse (fun h => List.noConfusion h)
  | _ :: _, [] => isFalse (fun h => List.noConfusion h)
  | (k, v) :: as, (k', v') :: bs =>
      match instDecidableEqString k k', Json.decEq v v', Json.decEqFields as bs with
      | isTrue h1, isTrue h2, isTrue h3 => isTrue (by rw [h1, h2, h3])
      | isFalse h1, _, _ =>
          isFalse (by
            intro hc
            injection hc with hp hr
            injection hp with hk hv
            rw [hk] at h1
            contradiction)
      | isTrue _, isFalse h2, _ =>
          isFalse (by
            intro hc
            injection hc with hp hr
            injection hp with hk hv
            rw [hv] at h2
            contradiction)
      | isTrue _, isTrue _, isFalse h3 => isFalse (by intro hc; injection hc; contradiction)

end

instance : DecidableEq Json := Json.decEq

/-- Python truthiness of a JSON value (`if x:`): `None`, `False`, `0`, `""`,
`[]` and `{}` are falsy. -/
def jsonTruthy : Json → Bool
  | .null => false
  | .bool b => b
  | .num n => n ≠ 0
  | .str s => s ≠ ""
  | .arr l => !l.isEmpty
  | .obj l => !l.isEmpty

/-- Python `dict` read `d[k]` / `d.get(k)`: value of the key if present. -/
def lookupField : List (String × Json) → String → Option Json
  | [], _ => none
  | (k', v') :: t, k => if k' = k then some v' else lookupField t k

/-- Python `dict` assignment `d[k] = v`: overwrites the existing entry in
place, or appends a new entry (insertion order preserved). -/
def dictSet : List (String × Json) → String → Json → List (String × Json)
  | [], k, v => [(k, v)]
  | (k', v') :: t, k, v => if k' = k then (k, v) :: t else (k', v') :: dictSet t k v

/-- Python list index normalisation: `l[i]` accepts `-len l ≤ i < len l`,
negative indices counting from the end; anything else raises `IndexError`. -/
def pyIdx (len : Nat) (i : Int) : Option Nat :=
  if 0 ≤ i then (if i < (len : Int) then some i.toNat else none)
  else (if -i ≤ (len : Int) then some (len - (-i).toNat) else none)

/-- Python list read `l[i]` (`none` = `IndexError`). -/
def pyIndexGet (l : List Json) (i : Int) : Option Json :=
  (pyIdx l.length i).bind l.get?

/-- Python list element assignment `l[i] = v` at an index that is known to be
in range (callers only use it after a successful read of the same index). -/
def pySet (l : List Json) (i : Int) (v : Json) : List Json :=
  match pyIdx l.length i with
  | some n => l.set n v
  | none => l

/-- Python `s.split('\n')` on a character list: always returns at least one
segment; `"".split('\n') == [""]`. -/
def splitNLChars : List Char → List (List Char)
  | [] => [[]]
  | c :: cs =>
      if c = '\n' then [] :: splitNLChars cs
      else
        match splitNLChars cs with
        | [] => [[c]]
        | h :: t => (c :: h) :: t

/-- Python `'\n'.join` on character lists. -/
def joinNLChars : List (List Char) → List Char
  | [] => []
  | [x] => x
  | x :: xs => x ++ '\n' :: joinNLChars xs

/-- Python `s.split('\n')` (line 120: `edited_content_str.split('\n')`). -/
def splitNL (s : String) : List String :=
  (splitNLChars s.data).map String.mk

/-- Python `'\n'.join(lines)` (line 113: `"\n".join(...)`). -/
def joinNL (lines : List String) : String :=
  String.mk (joinNLChars (lines.map String.data))

/-- Characters removed by Python `str.strip()` on ASCII text. -/
def isPySpace (c : Char) : Bool :=
  c = ' ' || c = '\t' || c = '\n' || c = '\r' || c = '\x0b' || c = '\x0c'

def pyStripChars (x : List Char) : List Char :=
  List.dropWhile isPySpace ((List.dropWhile isPySpace x.reverse).reverse)

/-- Python `s.strip()` (line 117), as strip-right-then-left (the two sides
are independent, so the order is immaterial). -/
def pyStrip (s : String) : String :=
  String.mk (pyStripChars s.data)

/-- Python `max(blob_list)` over one or more strings (line 37 with
`key=lambda b: b.name` over blob names): fold keeping the current value on
ties, replacing when a strictly greater element appears. -/
def pyMax1 (x : String) (l : List String) : String :=
  l.foldl (fun acc y => if acc < y then y else acc) x

/-- The reserved blob-name start `"prompt_repo_"` as a character test
(`list_blobs(name_starts_with="prompt_repo_")`, line 32). -/
def startsWithChars : List Char → List Char → Bool
  | [], _ => true
  | _ :: _, [] => false
  | p :: ps, c :: cs => p = c && startsWithChars ps cs

def isReservedKey (k : String) : Bool :=
  startsWithChars "prompt_repo_".data k.data

/-- Line 35: the default document created when no snapshot exists. -/
def defaultPromptRepo : Json :=
  Json.obj [("APPS", Json.arr [Json.obj [("name", Json.str "mmx"),
    ("prompts", Json.arr [])]])]

/-- Line 44: the degraded document returned when loading fails. -/
def emptyAppsDoc : Json := Json.obj [("APPS", Json.arr [])]

/-- Lines 26-44, `download_latest_prompt_repo_from_blob`.  The two external
effects inside the `try` block are passed in as their outcomes:
`listOutcome` is `list_blobs(name_starts_with="prompt_repo_")` (`error` =
connection/list failure) and `getOutcome k` is
`json.loads(get_blob_client(k).download_blob().readall())` (`error` = fetch
failure or JSON parse failure).  Any `error` is caught by the `except` and
degrades to `{"APPS": []}`; an empty listing returns the default document;
otherwise the blob with the `max` (lexicographically greatest) name is
fetched and parsed. -/
def download_latest_prompt_repo_from_blob
    (listOutcome : Except Unit (List String))
    (getOutcome : String → Except Unit Json) : Json :=
  match listOutcome with
  | .error _ => emptyAppsDoc
  | .ok blob_list =>
    match blob_list with
    | [] => defaultPromptRepo
    | x :: rest =>
      match getOutcome (pyMax1 x rest) with
      | .error _ => emptyAppsDoc
      | .ok j => j

/-- The blob container: an association list from blob name to the parse
outcome of the stored bytes (`some j` = bytes that `json.loads` accepts,
giving `j`; `none` = stored bytes that fail to parse). -/
abbrev Store := List (String × Option Json)

def storeKeys (st : Store) : List String := st.map Prod.fst

/-- The names `list_blobs(name_starts_with="prompt_repo_")` returns. -/
def reservedKeys (st : Store) : List String :=
  (storeKeys st).filter (fun k => isReservedKey k)

def lookupBlob : Store → String → Option (Option Json)
  | [], _ => none
  | (k', v) :: t, k => if k' = k then some v else lookupBlob t k

/-- Fetch-and-parse of one stored blob: fails when the key is absent or the
stored bytes do not parse. -/
def storeGetOutcome (st : Store) (k : String) : Except Unit Json :=
  match lookupBlob st k with
  | some (some j) => Except.ok j
  | _ => Except.error ()

/-- `download_latest_prompt_repo_from_blob` run against a concrete store
with no transport faults. -/
def downloadLatestFromStore (st : Store) : Json :=
  download_latest_prompt_repo_from_blob (Except.ok (reservedKeys st)) (storeGetOutcome st)

/-- The download as a store transformer: its body contains no
`upload_blob`/`put` call, so the store passes through unchanged. -/
def runDownloadLatest (st : Store) : Json × Store :=
  (downloadLatestFromStore st, st)

/-- Line 55: `f"prompt_repo_{timestamp}.json"`. -/
def blobName (timestamp : String) : String :=
  "prompt_repo_" ++ timestamp ++ ".json"

/-- Lines 57-61: `upload_blob(..., overwrite=True)` — replaces a blob of the
same name, otherwise adds a new one.  The uploaded bytes are `json.dumps`
output, which `json.loads` parses back, so the stored parse outcome is
`some` of the document. -/
def putBlob (st : Store) (k : String) (v : Json) : Store :=
  (st.filter (fun e => e.1 ≠ k)) ++ [(k, some v)]

/-- Lines 46-66, `upload_prompt_repo_to_blob`: returns `True` and the grown
store on success; `writeOk = false` models a backend write error, which the
`except` turns into `False` with the store unchanged. -/
def upload_prompt_repo_to_blob (st : Store) (data_to_upload : Json)
    (timestamp : String) (writeOk : Bool) : Bool × Store :=
  if writeOk then (true, putBlob st (blobName timestamp) data_to_upload)
  else (false, st)

/-- View a JSON value as a Python `dict` (`none` = it is not one, so
attribute/item access on it raises). -/
def Json.asObj : Json → Option (List (String × Json))
  | .obj f => some f
  | _ => none

/-- View a JSON value as a Python `list` (`none` = it is not one). -/
def Json.asArr : Json → Option (List Json)
  | .arr l => some l
  | _ => none

/-- Line 105: `data["APPS"][0].get("prompts", [])`.  `none` models an
uncaught exception on the page (subscript on a missing key, a non-list
`"APPS"`, an empty `"APPS"`, or a non-dict first app). -/
def promptListOf (d : Json) : Option (List Json) :=
  match d with
  | .obj f =>
    match lookupField f "APPS" with
    | some (.arr apps) =>
      match pyIndexGet apps 0 with
      | some (.obj af) =>
        match lookupField af "prompts" with
        | none => some []
        | some (.arr pl) => some pl
        | some _ => none
      | _ => none
    | _ => none
  | _ => none

/-- Line 106: `p.get("name", f"Unnamed Prompt {i}")` for the prompt at
position `i`; `none` = `p` is not a dict (`AttributeError`). -/
def promptNameAt (p : Json) (i : Nat) : Option Json :=
  match p with
  | .obj f =>
    match lookupField f "name" with
    | some v => some v
    | none => some (Json.str ("Unnamed Prompt " ++ toString i))
  | _ => none

def promptNamesFrom : Nat → List Json → Option (List Json)
  | _, [] => some []
  | i, p :: t =>
    match promptNameAt p i with
    | none => none
    | some n =>
      match promptNamesFrom (i + 1) t with
      | none => none
      | some ns => some (n :: ns)

/-- Line 106: the `prompt_names` list built by the comprehension. -/
def prompt_names_of (pl : List Json) : Option (List Json) :=
  promptNamesFrom 0 pl

/-- Python `list.index` (line 110): position of the FIRST occurrence of the
value; `none` = `ValueError`. -/
def py_list_index (l : List Json) (x : Json) : Option Nat :=
  match l with
  | [] => none
  | y :: t => if y = x then some 0 else (py_list_index t x).map (· + 1)

/-- Line 110: `prompt_names.index(selected_prompt_name) if
selected_prompt_name else -1`. -/
def selected_index_of (names : List Json) (chosen : Json) : Option Int :=
  if jsonTruthy chosen then (py_list_index names chosen).map Int.ofNat
  else some (-1)

def asStrings : List Json → Option (List String)
  | [] => some []
  | .str s :: t => (asStrings t).map (s :: ·)
  | _ :: _ => none

/-- `p.get("content", [])` (line 113): the content lines of one prompt,
required to be a list of strings for `"\n".join` to succeed. -/
def promptContentOf (p : Json) : Option (List String) :=
  match p with
  | .obj f =>
    match lookupField f "content" with
    | none => some []
    | some (.arr l) => asStrings l
    | some _ => none
  | _ => none

/-- Lines 105 and 113, the spec's `selectPrompt`: the content lines of
prompt `i` of app 0 joined by line breaks; `none` = a signalled failure
(`IndexError` when `i` is out of range — in particular whenever app 0 has
no prompts). -/
def selectPrompt (d : Json) (i : Int) : Option String :=
  match promptListOf d with
  | none => none
  | some pl =>
    match pyIndexGet pl i with
    | none => none
    | some p => (promptContentOf p).map joinNL

/-- Lines 111-113: `initial_content_str`. -/
def initial_content_str (d : Json) (selected_index : Int) : Option String :=
  if selected_index = -1 then some "" else selectPrompt d selected_index

/-- Lines 119-120: `updated_data = copy.deepcopy(data)` then
`updated_data["APPS"][0]["prompts"][selected_index]["content"] =
edited_content_str.split('\n')`.  `none` = one of the chained subscripts
raises.  A `deepcopy` of `json.loads` output has no internal sharing, so the
in-place mutation is this functional spine rebuild. -/
def setPromptContent (d : Json) (selected_index : Int)
    (newContent : List String) : Option Json :=
  (Json.asObj d).bind fun f =>
  (lookupField f "APPS").bind fun apps0 =>
  (Json.asArr apps0).bind fun apps =>
  (pyIndexGet apps 0).bind fun app0 =>
  (Json.asObj app0).bind fun af =>
  (lookupField af "prompts").bind fun pr =>
  (Json.asArr pr).bind fun pl =>
  (pyIndexGet pl selected_index).bind fun p =>
  (Json.asObj p).map fun pf =>
    Json.obj (dictSet f "APPS" (Json.arr (pySet apps 0
      (Json.obj (dictSet af "prompts" (Json.arr (pySet pl selected_index
        (Json.obj (dictSet pf "content"
          (Json.arr (newContent.map Json.str)))))))))))

/-- The process-local state the claims range over: the blob container, the
`st.cache_data` entry for the download function (value and fetch time), and
`st.session_state.prompt_data`. -/
structure AppState where
  store : Store
  cache : Option (Json × Nat)
  prompt_data : Json
deriving DecidableEq

/-- `@st.cache_data(ttl=300)` around the download (line 25): a hit younger
than the TTL returns the cached value; otherwise the store is consulted and
the result cached with the current time.  Returns the value and the new
cache entry. -/
def cached_download (st : Store) (cache : Option (Json × Nat)) (now : Nat) :
    Json × Option (Json × Nat) :=
  match cache with
  | some (v, t) =>
      if now < t + 300 then (v, some (v, t))
      else (downloadLatestFromStore st, some (downloadLatestFromStore st, now))
  | none => (downloadLatestFromStore st, some (downloadLatestFromStore st, now))

inductive EditOutcome where
  | noChange
  | published
  | publishFailed
deriving DecidableEq, Repr

/-- Lines 116-126: the "Upload Changes to Azure" button handler.  `initial`
and `edited` are the page's `initial_content_str` and `edited_content_str`;
on a successful upload the cache is cleared (`st.cache_data.clear()`) and
the session document replaced by `updated_data`; on a failed upload nothing
changes; with no change (or no selection) nothing happens.  `none` =
uncaught exception while building `updated_data`. -/
def upload_changes_handler (s : AppState) (selected_index : Int)
    (initial edited : String) (timestamp : String) (writeOk : Bool) :
    Option (AppState × EditOutcome) :=
  if selected_index ≠ -1 ∧ pyStrip edited ≠ pyStrip initial then
    match setPromptContent s.prompt_data selected_index (splitNL edited) with
    | none => none
    | some updated_data =>
      match upload_prompt_repo_to_blob s.store updated_data timestamp writeOk with
      | (true, st') =>
          some ({ store := st', cache := none, prompt_data := updated_data },
            EditOutcome.published)
      | (false, st') =>
          some ({ s with store := st' }, EditOutcome.publishFailed)
  else some (s, EditOutcome.noChange)

inductive RawOutcome where
  | invalidJson
  | published
  | publishFailed
deriving DecidableEq, Repr

/-- Lines 143-151: the "Upload Raw JSON to Azure" button handler.  `parse`
models `json.loads` on the user-typed text (`none` = `json.JSONDecodeError`,
caught at line 150 leaving everything untouched). -/
def upload_raw_handler (s : AppState) (parse : String → Option Json)
    (text : String) (timestamp : String) (writeOk : Bool) :
    AppState × RawOutcome :=
  match parse text with
  | none => (s, RawOutcome.invalidJson)
  | some new_data =>
    match upload_prompt_repo_to_blob s.store new_data timestamp writeOk with
    | (true, st') =>
        ({ store := st', cache := none, prompt_data := new_data },
          RawOutcome.published)
    | (false, st') =>
        ({ s with store := st' }, RawOutcome.publishFailed)

/-- A concrete well-formed document used to exercise the theorems: one app
`"mmx"` with a single prompt `"p"` whose content is `["a"]`. -/
def sampleDoc : Json :=
  Json.obj [("APPS", Json.arr [Json.obj [("name", Json.str "mmx"),
    ("prompts", Json.arr [Json.obj [("name", Json.str "p"),
      ("content", Json.arr [Json.str "a"])]])]])]

/-- `sampleDoc` after replacing prompt 0's content with `["b"]`. -/
def sampleDocEdited : Json :=
  Json.obj [("APPS", Json.arr [Json.obj [("name", Json.str "mmx"),
    ("prompts", Json.arr [Json.obj [("name", Json.str "p"),
      ("content", Json.arr [Json.str "b"])]])]])]

/-- A document whose app 0 has two prompts both named `"p"`: the first with
content `["a"]`, the second with content `["z"]`. -/
def dupDoc : Json :=
  Json.obj [("APPS", Json.arr [Json.obj [("name", Json.str "mmx"),
    ("prompts", Json.arr [
      Json.obj [("name", Json.str "p"), ("content", Json.arr [Json.str "a"])],
      Json.obj [("name", Json.str "p"), ("content", Json.arr [Json.str "z"])]])]])]

/-- `dupDoc` after the edit writes `["b"]`: the FIRST duplicate's content is
replaced, the second is untouched. -/
def dupDocEdited : Json :=
  Json.obj [("APPS", Json.arr [Json.obj [("name", Json.str "mmx"),
    ("prompts", Json.arr [
      Json.obj [("name", Json.str "p"), ("content", Json.arr [Json.str "b"])],
      Json.obj [("name", Json.str "p"), ("content", Json.arr [Json.str "z"])]])]])]

theorem lookupField_dictSet_self (f : List (String × Json)) (k : String) (v : Json) :
    lookupField (dictSet f k v) k = some v := by
  induction f with
  | nil => simp [dictSet, lookupField]
  | cons e t ih =>
      obtain ⟨k', v'⟩ := e
      by_cases h : k' = k
      · simp [dictSet, lookupField, h]
      · simp [dictSet, lookupField, h, ih]

theorem pyIdx_ofNat (len n : Nat) :
    pyIdx len (n : Int) = if n < len then some n else none := by
  simp only [pyIdx]
  rw [if_pos (by omega : (0 : Int) ≤ (n : Int))]
  by_cases h : n < len
  · rw [if_pos (by omega : ((n : Int) < (len : Int))), if_pos h]
    simp
  · rw [if_neg (by omega : ¬ ((n : Int) < (len : Int))), if_neg h]

theorem pyIndexGet_ofNat (l : List Json) (n : Nat) (h : n < l.length) :
    pyIndexGet l (n : Int) = l.get? n := by
  simp [pyIndexGet, pyIdx_ofNat, h]

theorem pySet_ofNat (l : List Json) (n : Nat) (v : Json) (h : n < l.length) :
    pySet l (n : Int) v = l.set n v := by
  simp only [pySet, pyIdx_ofNat, if_pos h]

theorem splitNLChars_ne_nil (cs : List Char) : splitNLChars cs ≠ [] := by
  cases cs with
  | nil => simp [splitNLChars]
  | cons c cs =>
      by_cases h : c = '\n'
      · simp [splitNLChars, h]
      · simp only [splitNLChars, if_neg h]
        cases splitNLChars cs <;> simp

theorem joinNLChars_cons_cons (c : Char) (h : List Char) (rest : List (List Char)) :
    joinNLChars ((c :: h) :: rest) = c :: joinNLChars (h :: rest) := by
  cases rest <;> simp [joinNLChars]

theorem joinNLChars_splitNLChars (cs : List Char) :
    joinNLChars (splitNLChars cs) = cs := by
  induction cs with
  | nil => simp [splitNLChars, joinNLChars]
  | cons c cs ih =>
      by_cases h : c = '\n'
      · subst h
        simp only [splitNLChars, if_pos rfl]
        obtain ⟨x, t, hxt⟩ : ∃ x t, splitNLChars cs = x :: t := by
          cases hs : splitNLChars cs with
          | nil => exact absurd hs (splitNLChars_ne_nil cs)
          | cons x t => exact ⟨x, t, rfl⟩
        rw [hxt]
        rw [hxt] at ih
        simpa [joinNLChars] using ih
      · simp only [splitNLChars, if_neg h]
        obtain ⟨x, t, hxt⟩ : ∃ x t, splitNLChars cs = x :: t := by
          cases hs : splitNLChars cs with
          | nil => exact absurd hs (splitNLChars_ne_nil cs)
          | cons x t => exact ⟨x, t, rfl⟩
        rw [hxt] at ih
        simp only [hxt]
        rw [joinNLChars_cons_cons c x t, ih]

theorem splitNLChars_no_newline (x : List Char) (hx : '\n' ∉ x) :
    splitNLChars x = [x] := by
  induction x with
  | nil => simp [splitNLChars]
  | cons c cs ih =>
      simp only [List.mem_cons, not_or] at hx
      have hne : ¬ c = '\n' := fun hc => hx.1 hc.symm
      simp only [splitNLChars, if_neg hne, ih hx.2]

theorem splitNLChars_join_cons (x : List Char) (hx : '\n' ∉ x) (r : List Char) :
    splitNLChars (x ++ '\n' :: r) = x :: splitNLChars r := by
  induction x with
  | nil => simp [splitNLChars]
  | cons c cs ih =>
      simp only [List.mem_cons, not_or] at hx
      have hne : ¬ c = '\n' := fun hc => hx.1 hc.symm
      rw [List.cons_append]
      simp only [splitNLChars, if_neg hne, ih hx.2]

theorem splitNLChars_joinNLChars (l : List (List Char)) (hne : l ≠ [])
    (hnl : ∀ x ∈ l, '\n' ∉ x) : splitNLChars (joinNLChars l) = l := by
  induction l with
  | nil => exact absurd rfl hne
  | cons x t ih =>
      cases t with
      | nil =>
          simp only [joinNLChars]
          exact splitNLChars_no_newline x (hnl x (by simp))
      | cons y u =>
          simp only [joinNLChars]
          rw [splitNLChars_join_cons x (hnl x (by simp))]
          rw [ih (by simp) (fun z hz => hnl z (List.mem_cons_of_mem x hz))]

theorem pyStrip_append_newline (s : String) : pyStrip (s ++ "\n") = pyStrip s := by
  simp only [pyStrip, pyStripChars, String.data_append]
  have h1 : (s.data ++ "\n".data).reverse = '\n' :: s.data.reverse := by
    simp [String.data]
  rw [h1]
  simp [List.dropWhile, isPySpace]

theorem pyMax1_mem (x : String) (l : List String) : pyMax1 x l ∈ x :: l := by
  induction l generalizing x with
  | nil => simp [pyMax1]
  | cons y t ih =>
      simp only [pyMax1, List.foldl_cons]
      have ih' := ih (if x < y then y else x)
      simp only [pyMax1] at ih'
      rcases List.mem_cons.mp ih' with h | h
      · rw [h]
        by_cases hxy : x < y
        · rw [if_pos hxy]
          exact List.mem_cons_of_mem _ (List.mem_cons_self _ _)
        · rw [if_neg hxy]
          exact List.mem_cons_self _ _
      · exact List.mem_cons_of_mem _ (List.mem_cons_of_mem _ h)

theorem pyMax1_ub (x : String) (l : List String) : ∀ y ∈ x :: l, y ≤ pyMax1 x l := by
  induction l generalizing x with
  | nil =>
      intro y hy
      rcases List.mem_cons.mp hy with h | h
      · rw [h]
        simp only [pyMax1, List.foldl_nil]
        exact le_refl x
      · exact absurd h (List.not_mem_nil y)
  | cons z t ih =>
      intro y hy
      simp only [pyMax1, List.foldl_cons]
      have ih' := ih (if x < z then z else x)
      simp only [pyMax1] at ih'
      have hstep : ∀ w : String, w ≤ (if x < z then z else x) →
          w ≤ List.foldl (fun acc y => if acc < y then y else acc) (if x < z then z else x) t :=
        fun w hw => le_trans hw (ih' _ (List.mem_cons_self _ _))
      rcases List.mem_cons.mp hy with h | h
      · rw [h]
        refine hstep x ?_
        by_cases hxz : x < z
        · rw [if_pos hxz]
          exact le_of_lt hxz
        · rw [if_neg hxz]
      · rcases List.mem_cons.mp h with h2 | h2
        · rw [h2]
          refine hstep z ?_
          by_cases hxz : x < z
          · rw [if_pos hxz]
          · rw [if_neg hxz]
            exact le_of_not_lt hxz
        · exact ih' y (List.mem_cons_of_mem _ h2)

theorem pyMax1_eq_of_ub (x : String) (l : List String) (m : String)
    (hm : m ∈ x :: l) (hub : ∀ y ∈ x :: l, y ≤ m) : pyMax1 x l = m :=
  le_antisymm (hub _ (pyMax1_mem x l)) (pyMax1_ub x l m hm)

theorem pyMax1_perm (x x' : String) (l l' : List String)
    (h : (x :: l).Perm (x' :: l')) : pyMax1 x l = pyMax1 x' l' :=
  le_antisymm
    (pyMax1_ub x' l' _ (h.mem_iff.mp (pyMax1_mem x l)))
    (pyMax1_ub x l _ (h.mem_iff.mpr (pyMax1_mem x' l')))

theorem data_comp_mk_eq_id : (String.data ∘ String.mk) = id :=
  funext fun _ => rfl

theorem mk_comp_data_eq_id : (String.mk ∘ String.data) = id :=
  funext fun _ => rfl

theorem joinNL_splitNL (s : String) : joinNL (splitNL s) = s := by
  simp only [joinNL, splitNL, List.map_map, data_comp_mk_eq_id, List.map_id]
  rw [joinNLChars_splitNLChars]

theorem splitNL_joinNL (l : List String) (hne : l ≠ [])
    (hnl : ∀ s ∈ l, '\n' ∉ s.data) : splitNL (joinNL l) = l := by
  simp only [joinNL, splitNL]
  rw [splitNLChars_joinNLChars (l.map String.data)
    (by simpa using hne)
    (by intro x hx
        rcases List.mem_map.mp hx with ⟨s, hs, rfl⟩
        exact hnl s hs)]
  simp only [List.map_map, mk_comp_data_eq_id, List.map_id]

theorem startsWithChars_append (p r : List Char) :
    startsWithChars p (p ++ r) = true := by
  induction p with
  | nil => simp [startsWithChars]
  | cons c cs ih => simp [startsWithChars, ih]

theorem pyIdx_none_of_out (len : Nat) (i : Int)
    (h : (len : Int) ≤ i ∨ i < -(len : Int)) : pyIdx len i = none := by
  unfold pyIdx
  split_ifs with h1 h2 h3
  · exfalso
    omega
  · rfl
  · exfalso
    omega
  · rfl

theorem pyIndexGet_none_of_out (l : List Json) (i : Int)
    (h : ((l.length : Int) ≤ i ∨ i < -(l.length : Int))) :
    pyIndexGet l i = none := by
  simp [pyIndexGet, pyIdx_none_of_out _ _ h]

/-- Claim C2: for every non-empty listing of reserved-prefix blob names,
`download_latest_prompt_repo_from_blob` selects exactly the
lexicographically greatest name — a member of and an upper bound of the
listing — fetches it, and returns its parse; and it returns the same result
for every permutation of the listing, so the backend's listing order is
immaterial. -/
theorem loadLatest_selects_lex_max (x : String) (rest : List String)
    (g : String → Except Unit Json) (j : Json)
    (hg : g (pyMax1 x rest) = Except.ok j) :
    pyMax1 x rest ∈ x :: rest ∧
    (∀ y ∈ x :: rest, y ≤ pyMax1 x rest) ∧
    download_latest_prompt_repo_from_blob (Except.ok (x :: rest)) g = j ∧
    (∀ (x' : String) (rest' : List String), (x :: rest).Perm (x' :: rest') →
      download_latest_prompt_repo_from_blob (Except.ok (x' :: rest')) g = j) := by
  refine ⟨pyMax1_mem x rest, pyMax1_ub x rest, ?_, ?_⟩
  · simp [download_latest_prompt_repo_from_blob, hg]
  · intro x' rest' hperm
    have hmax : pyMax1 x' rest' = pyMax1 x rest :=
      (pyMax1_perm x x' rest rest' hperm).symm
    simp [download_latest_prompt_repo_from_blob, hmax, hg]

theorem loadLatest_selects_lex_max_witness :
    download_latest_prompt_repo_from_blob
      (Except.ok ["prompt_repo_20240101_090000.json", "prompt_repo_20240101_100000.json"])
      (fun _ => Except.ok (Json.str "snapshot")) = Json.str "snapshot" :=
  (loadLatest_selects_lex_max "prompt_repo_20240101_090000.json"
    ["prompt_repo_20240101_100000.json"]
    (fun _ => Except.ok (Json.str "snapshot")) (Json.str "snapshot") rfl).2.2.1

/-- Claim C3: when no key with the reserved start exists in the store, the
latest-snapshot load returns the default document
`{"APPS":[{"name":"mmx","prompts":[]}]}` and performs no write: the store
component passes through unchanged. -/
theorem loadLatest_no_snapshots_default (st : Store)
    (h : reservedKeys st = []) :
    runDownloadLatest st = (defaultPromptRepo, st) := by
  simp [runDownloadLatest, downloadLatestFromStore, h,
    download_latest_prompt_repo_from_blob]

theorem loadLatest_no_snapshots_default_witness :
    runDownloadLatest [("unrelated.txt", some (Json.str "x"))] =
      (defaultPromptRepo, [("unrelated.txt", some (Json.str "x"))]) :=
  loadLatest_no_snapshots_default [("unrelated.txt", some (Json.str "x"))] (by decide)

/-- Claim C6: a backend fetch failure or a JSON parse failure while loading
the latest snapshot degrades to the empty-apps document `{"APPS": []}` —
and so does a failure of the listing itself — instead of crashing; this
degraded document is distinct from the no-snapshots default. -/
theorem loadLatest_failure_degrades (x : String) (rest : List String)
    (g : String → Except Unit Json)
    (hg : g (pyMax1 x rest) = Except.error ()) :
    download_latest_prompt_repo_from_blob (Except.ok (x :: rest)) g = emptyAppsDoc ∧
    (∀ g' : String → Except Unit Json,
      download_latest_prompt_repo_from_blob (Except.error ()) g' = emptyAppsDoc) ∧
    emptyAppsDoc ≠ defaultPromptRepo := by
  refine ⟨?_, fun g' => rfl, by decide⟩
  simp [download_latest_prompt_repo_from_blob, hg]

theorem loadLatest_failure_degrades_witness :
    download_latest_prompt_repo_from_blob
      (Except.ok ["prompt_repo_20240101_090000.json"])
      (fun _ => Except.error ()) = emptyAppsDoc :=
  (loadLatest_failure_degrades "prompt_repo_20240101_090000.json" []
    (fun _ => Except.error ()) rfl).1

/-- Claim C5: when the raw-JSON text does not parse, the raw upload handler
signals invalid input and changes nothing: no publish happens (the store is
part of the unchanged state) and the held document stays as it was. -/
theorem raw_replace_malformed_noop (s : AppState)
    (parse : String → Option Json) (text timestamp : String) (writeOk : Bool)
    (h : parse text = none) :
    upload_raw_handler s parse text timestamp writeOk =
      (s, RawOutcome.invalidJson) := by
  simp [upload_raw_handler, h]

theorem raw_replace_malformed_noop_witness :
    upload_raw_handler ⟨[], none, defaultPromptRepo⟩ (fun _ => none)
      "not json" "20240101_120000" true =
      (⟨[], none, defaultPromptRepo⟩, RawOutcome.invalidJson) :=
  raw_replace_malformed_noop ⟨[], none, defaultPromptRepo⟩ (fun _ => none)
    "not json" "20240101_120000" true rfl

/-- Claim C7: whenever the trimmed edited text equals the trimmed original
joined content (they differ only in leading/trailing whitespace), the edit
handler reports no change and nothing is published, for every prompt
index. -/
theorem prompt_edit_trim_equal_noop (s : AppState) (selected_index : Int)
    (initial edited timestamp : String) (writeOk : Bool)
    (_hinit : initial_content_str s.prompt_data selected_index = some initial)
    (hstrip : pyStrip edited = pyStrip initial) :
    upload_changes_handler s selected_index initial edited timestamp writeOk =
      some (s, EditOutcome.noChange) := by
  simp [upload_changes_handler, hstrip]

theorem prompt_edit_trim_equal_noop_witness :
    upload_changes_handler ⟨[], none, sampleDoc⟩ 0 "a" "a\n" "20240101_120000" true =
      some (⟨[], none, sampleDoc⟩, EditOutcome.noChange) :=
  prompt_edit_trim_equal_noop ⟨[], none, sampleDoc⟩ 0 "a" "a\n" "20240101_120000" true
    (by decide) (by decide)

/-- Claim C4: a publish attempt that fails with a backend write error leaves
the entire state unchanged — held document, cache and store — and reports
the failure: the edit is not committed and the cache is not cleared. -/
theorem publish_failure_no_partial_commit (s : AppState) (selected_index : Int)
    (initial edited timestamp : String) (cand : Json)
    (hchange : selected_index ≠ -1 ∧ pyStrip edited ≠ pyStrip initial)
    (hcand : setPromptContent s.prompt_data selected_index (splitNL edited) = some cand) :
    upload_changes_handler s selected_index initial edited timestamp false =
      some (s, EditOutcome.publishFailed) := by
  simp only [upload_changes_handler, if_pos hchange, hcand, upload_prompt_repo_to_blob]
  simp

theorem publish_failure_no_partial_commit_witness :
    upload_changes_handler ⟨[], none, sampleDoc⟩ 0 "a" "b" "20240101_120000" false =
      some (⟨[], none, sampleDoc⟩, EditOutcome.publishFailed) :=
  publish_failure_no_partial_commit ⟨[], none, sampleDoc⟩ 0 "a" "b" "20240101_120000"
    sampleDocEdited (by decide) (by decide)

/-- Claim C9: `selectPrompt` returns the content lines of prompt `i` of app
0 joined by line breaks, and fails with signalled `IndexError` semantics
whenever the index is out of range — in particular for every index when app
0 has no prompts. -/
theorem selectPrompt_spec (d : Json) (pl : List Json)
    (hpl : promptListOf d = some pl) :
    (∀ i : Int, ((pl.length : Int) ≤ i ∨ i < -(pl.length : Int)) →
      selectPrompt d i = none) ∧
    (pl = [] → ∀ i : Int, selectPrompt d i = none) ∧
    (∀ (n : Nat) (p : Json) (c : List String), pl.get? n = some p →
      promptContentOf p = some c → selectPrompt d (n : Int) = some (joinNL c)) := by
  refine ⟨?_, ?_, ?_⟩
  · intro i hi
    simp [selectPrompt, hpl, pyIndexGet_none_of_out pl i hi]
  · intro hempty i
    subst hempty
    have hout : (((List.length ([] : List Json)) : Int) ≤ i ∨
        i < -((List.length ([] : List Json)) : Int)) := by
      simp only [List.length_nil, Nat.cast_zero, neg_zero]
      omega
    simp [selectPrompt, hpl, pyIndexGet_none_of_out _ i hout]
  · intro n p c hp hc
    have hlen : n < pl.length := by
      rcases List.get?_eq_some.mp hp with ⟨h, _⟩
      exact h
    have hp' : pl[n]? = some p := by
      rw [← List.get?_eq_getElem?]
      exact hp
    simp [selectPrompt, hpl, pyIndexGet_ofNat pl n hlen, hp', hc]

theorem selectPrompt_spec_witness :
    selectPrompt sampleDoc 5 = none ∧
    selectPrompt sampleDoc 0 = some (joinNL ["a"]) := by
  have h := selectPrompt_spec sampleDoc
    [Json.obj [("name", Json.str "p"), ("content", Json.arr [Json.str "a"])]]
    (by decide)
  exact ⟨h.1 5 (by decide),
    h.2.2 0 (Json.obj [("name", Json.str "p"), ("content", Json.arr [Json.str "a"])])
      ["a"] (by decide) (by decide)⟩

/-- Claim C8 counterexample: join-then-split is NOT the identity on every
list of strings — a single line holding an embedded newline is split into
two lines. -/
theorem content_roundtrip_cex :
    splitNL (joinNL ["a\nb"]) = ["a", "b"] ∧ ["a", "b"] ≠ ["a\nb"] := by
  decide

/-- Claim C8 (amended): for every NONEMPTY list of lines NONE OF WHICH
contains a newline character — exactly what split produces and the editor
stores — joining with a newline and splitting the result restores the list
(empty lines preserved); conversely splitting any text and re-joining
reproduces it exactly (join adds no trailing newline); and an edit that
differs from the original text only by an appended trailing newline is
treated as no change, so a trailing newline never alters stored content
through the edit path. -/
theorem content_roundtrip_amended (l : List String) (hne : l ≠ [])
    (hnl : ∀ s ∈ l, '\n' ∉ s.data) :
    splitNL (joinNL l) = l ∧
    (∀ t : String, joinNL (splitNL t) = t) ∧
    (∀ (s : AppState) (i : Int) (initial timestamp : String) (w : Bool),
      upload_changes_handler s i initial (initial ++ "\n") timestamp w =
        some (s, EditOutcome.noChange)) := by
  refine ⟨splitNL_joinNL l hne hnl, joinNL_splitNL, ?_⟩
  intro s i initial timestamp w
  simp [upload_changes_handler, pyStrip_append_newline]

theorem content_roundtrip_amended_witness :
    splitNL (joinNL ["a", "", "b"]) = ["a", "", "b"] :=
  (content_roundtrip_amended ["a", "", "b"] (by decide) (by decide)).1

theorem filter_ne_self_of_not_mem (st : Store) (K : String)
    (h : K ∉ storeKeys st) : st.filter (fun e => e.1 ≠ K) = st := by
  induction st with
  | nil => rfl
  | cons e t ih =>
      simp only [storeKeys, List.map_cons, List.mem_cons, not_or] at h
      have he : e.1 ≠ K := fun hc => h.1 hc.symm
      have ht : K ∉ storeKeys t := h.2
      rw [List.filter_cons, if_pos (decide_eq_true he), ih ht]

theorem putBlob_eq_append (st : Store) (K : String) (v : Json)
    (h : K ∉ storeKeys st) : putBlob st K v = st ++ [(K, some v)] := by
  unfold putBlob
  rw [filter_ne_self_of_not_mem st K h]

theorem reservedKeys_append_reserved (st : Store) (K : String) (w : Option Json)
    (hK : isReservedKey K = true) :
    reservedKeys (st ++ [(K, w)]) = reservedKeys st ++ [K] := by
  simp [reservedKeys, storeKeys, List.filter_append, hK]

theorem lookupBlob_append_self (st : Store) (K : String) (w : Option Json)
    (h : K ∉ storeKeys st) : lookupBlob (st ++ [(K, w)]) K = some w := by
  induction st with
  | nil => simp [lookupBlob]
  | cons e t ih =>
      simp only [storeKeys, List.map_cons, List.mem_cons, not_or] at h
      have he : e.1 ≠ K := fun hc => h.1 hc.symm
      obtain ⟨k', v'⟩ := e
      simp only [List.cons_append, lookupBlob, if_neg he]
      exact ih h.2

theorem pyMax1_append_max (x : String) (rest : List String) (K : String)
    (h : ∀ k ∈ x :: rest, k < K) : pyMax1 x (rest ++ [K]) = K := by
  apply pyMax1_eq_of_ub
  · exact List.mem_cons_of_mem _ (List.mem_append_right _ (List.mem_singleton.mpr rfl))
  · intro y hy
    rcases List.mem_cons.mp hy with hyx | hy2
    · exact le_of_lt (h y (by rw [hyx]; exact List.mem_cons_self _ _))
    · rcases List.mem_append.mp hy2 with hyr | hyK
      · exact le_of_lt (h y (List.mem_cons_of_mem _ hyr))
      · rw [List.mem_singleton.mp hyK]

theorem isReservedKey_blobName (ts : String) :
    isReservedKey (blobName ts) = true := by
  have hdata : (blobName ts).data = "prompt_repo_".data ++ (ts.data ++ ".json".data) := by
    simp [blobName, String.data_append, List.append_assoc]
  show startsWithChars "prompt_repo_".data (blobName ts).data = true
  rw [hdata]
  exact startsWithChars_append _ _

/-- After `upload_blob` of a document under a reserved-format name strictly
greater than every existing key, re-running the latest-snapshot download
returns exactly that document. -/
theorem downloadLatest_after_put (st : Store) (K : String) (v : Json)
    (hres : isReservedKey K = true)
    (hfresh : ∀ k ∈ storeKeys st, k < K) :
    downloadLatestFromStore (putBlob st K v) = v := by
  have hnot : K ∉ storeKeys st := fun hmem => absurd (hfresh K hmem) (lt_irrefl K)
  rw [putBlob_eq_append st K v hnot]
  have hget : storeGetOutcome (st ++ [(K, some v)]) K = Except.ok v := by
    simp [storeGetOutcome, lookupBlob_append_self st K (some v) hnot]
  have hsub : ∀ k ∈ reservedKeys st, k < K := by
    intro k hk
    exact hfresh k (List.mem_filter.mp hk).1
  unfold downloadLatestFromStore
  rw [reservedKeys_append_reserved st K (some v) hres]
  cases hrk : reservedKeys st with
  | nil =>
      simp [download_latest_prompt_repo_from_blob, pyMax1, hget]
  | cons x xs =>
      have hmax : pyMax1 x (xs ++ [K]) = K := by
        apply pyMax1_append_max
        intro k hk
        apply hsub
        rw [hrk]
        exact hk
      simp [download_latest_prompt_repo_from_blob, hmax, hget]

/-- Claim C1: when a prompt edit produces a candidate document and the
publish succeeds, the handler clears the cache entry and replaces the held
document by the candidate, and the next cached read — at any time, since
the entry is gone — re-fetches from the store and returns the newly
published document, not the previously cached one. -/
theorem publish_success_read_after_write (st : Store) (cache : Option (Json × Nat))
    (doc cand : Json) (selected_index : Int)
    (initial edited timestamp : String) (now : Nat)
    (hchange : selected_index ≠ -1 ∧ pyStrip edited ≠ pyStrip initial)
    (hcand : setPromptContent doc selected_index (splitNL edited) = some cand)
    (hfresh : ∀ k ∈ storeKeys st, k < blobName timestamp) :
    upload_changes_handler ⟨st, cache, doc⟩ selected_index initial edited timestamp true =
      some (⟨putBlob st (blobName timestamp) cand, none, cand⟩, EditOutcome.published) ∧
    (cached_download (putBlob st (blobName timestamp) cand) none now).1 = cand := by
  constructor
  · simp only [upload_changes_handler, if_pos hchange]
    simp [hcand, upload_prompt_repo_to_blob]
  · simp only [cached_download]
    exact downloadLatest_after_put st (blobName timestamp) cand
      (isReservedKey_blobName timestamp) hfresh

theorem publish_success_read_after_write_witness :
    upload_changes_handler ⟨[], none, sampleDoc⟩ 0 "a" "b" "20240101_120000" true =
      some (⟨putBlob [] (blobName "20240101_120000") sampleDocEdited, none, sampleDocEdited⟩,
        EditOutcome.published) ∧
    (cached_download (putBlob [] (blobName "20240101_120000") sampleDocEdited) none 0).1 =
      sampleDocEdited :=
  publish_success_read_after_write [] none sampleDoc sampleDocEdited 0 "a" "b"
    "20240101_120000" 0 (by decide) (by decide) (by simp [storeKeys])

theorem Json.asObj_eq_some (d : Json) (f : List (String × Json))
    (h : Json.asObj d = some f) : d = Json.obj f := by
  cases d <;> simp [Json.asObj] at h <;> rw [h]

theorem Json.asArr_eq_some (d : Json) (l : List Json)
    (h : Json.asArr d = some l) : d = Json.arr l := by
  cases d <;> simp [Json.asArr] at h <;> rw [h]

theorem pyIndexGet_ofNat_some (l : List Json) (n : Nat) (a : Json)
    (h : pyIndexGet l (n : Int) = some a) : n < l.length ∧ l.get? n = some a := by
  by_cases hl : n < l.length
  · refine ⟨hl, ?_⟩
    rw [← pyIndexGet_ofNat l n hl]
    exact h
  · exfalso
    rw [pyIndexGet, pyIdx_ofNat, if_neg hl] at h
    simp at h

theorem py_list_index_first (ns : List Json) (v : Json) (i : Nat)
    (hi : ns.get? i = some v) (hfirst : ∀ k, k < i → ns.get? k ≠ some v) :
    py_list_index ns v = some i := by
  induction ns generalizing i with
  | nil => simp at hi
  | cons y t ih =>
      cases i with
      | zero =>
          rw [List.get?_cons_zero] at hi
          injection hi with hy
          simp [py_list_index, hy]
      | succ n =>
          have hy : ¬ y = v := by
            intro hyv
            exact hfirst 0 (Nat.succ_pos n) (by rw [List.get?_cons_zero, hyv])
          simp only [py_list_index, if_neg hy]
          rw [ih n (by rw [← List.get?_cons_succ]; exact hi)
            (fun k hk hc =>
              hfirst (k + 1) (Nat.succ_lt_succ hk) (by rw [List.get?_cons_succ]; exact hc))]
          rfl

/-- Claim C10: when app 0 holds two prompts with the same name, selecting
that name resolves — via `list.index` — to the FIRST index bearing it, so
both the read shown in the editor and the write performed by the edit hit
the first duplicate: the candidate document has prompt `i`'s content
replaced and the later duplicate `j` untouched. -/
theorem duplicate_names_resolve_first (d : Json) (pl ns : List Json) (i j : Nat)
    (v p : Json) (c : List String) (d' : Json)
    (hpl : promptListOf d = some pl)
    (_hns : prompt_names_of pl = some ns)
    (hij : i < j)
    (_hvj : ns.get? j = some v)
    (hvi : ns.get? i = some v)
    (hfirst : ∀ k, k < i → ns.get? k ≠ some v)
    (htruthy : jsonTruthy v = true)
    (hp : pl.get? i = some p)
    (hset : setPromptContent d (i : Int) c = some d') :
    selected_index_of ns v = some (i : Int) ∧
    selectPrompt d (i : Int) = (promptContentOf p).map joinNL ∧
    ∃ pf : List (String × Json), p = Json.obj pf ∧
      promptListOf d' = some (pl.set i (Json.obj (dictSet pf "content"
        (Json.arr (c.map Json.str))))) ∧
      (pl.set i (Json.obj (dictSet pf "content"
        (Json.arr (c.map Json.str))))).get? j = pl.get? j := by
  have hlen : i < pl.length := by
    rcases List.get?_eq_some.mp hp with ⟨h, _⟩
    exact h
  rcases Option.bind_eq_some.mp hset with ⟨f, hf, hset1⟩
  rcases Option.bind_eq_some.mp hset1 with ⟨apps0, happs0, hset2⟩
  rcases Option.bind_eq_some.mp hset2 with ⟨apps, happs, hset3⟩
  rcases Option.bind_eq_some.mp hset3 with ⟨app0, happ0, hset4⟩
  rcases Option.bind_eq_some.mp hset4 with ⟨af, haf, hset5⟩
  rcases Option.bind_eq_some.mp hset5 with ⟨pr, hpr, hset6⟩
  rcases Option.bind_eq_some.mp hset6 with ⟨pl0, hpl0, hset7⟩
  rcases Option.bind_eq_some.mp hset7 with ⟨p0, hp0, hset8⟩
  rcases Option.map_eq_some'.mp hset8 with ⟨pf, hpf, hd'⟩
  have hd : d = Json.obj f := Json.asObj_eq_some d f hf
  have happs0' : lookupField f "APPS" = some (Json.arr apps) := by
    rw [happs0, Json.asArr_eq_some apps0 apps happs]
  have happ0' : pyIndexGet apps 0 = some (Json.obj af) := by
    rw [happ0, Json.asObj_eq_some app0 af haf]
  have hpr' : lookupField af "prompts" = some (Json.arr pl0) := by
    rw [hpr, Json.asArr_eq_some pr pl0 hpl0]
  subst hd
  have hpl' := hpl
  simp only [promptListOf, happs0', happ0', hpr', Option.some.injEq] at hpl'
  rw [hpl'] at hp0 hd'
  have hp0p : p0 = p := by
    have h1 : pyIndexGet pl (i : Int) = some p := by
      rw [pyIndexGet_ofNat pl i hlen]
      exact hp
    rw [h1] at hp0
    exact (Option.some.inj hp0).symm
  rw [hp0p] at hpf
  have hppf : p = Json.obj pf := Json.asObj_eq_some p pf hpf
  have happslen := pyIndexGet_ofNat_some apps 0 (Json.obj af) happ0'
  refine ⟨?_, ?_, pf, hppf, ?_, ?_⟩
  · simp only [selected_index_of, htruthy, if_pos]
    rw [py_list_index_first ns v i hvi hfirst]
    rfl
  · have hp' : pl[i]? = some p := by
      rw [← List.get?_eq_getElem?]
      exact hp
    simp [selectPrompt, hpl, pyIndexGet_ofNat pl i hlen, hp']
  · rw [← hd']
    have hsetpl : pySet pl (i : Int)
        (Json.obj (dictSet pf "content" (Json.arr (c.map Json.str)))) =
        pl.set i (Json.obj (dictSet pf "content" (Json.arr (c.map Json.str)))) :=
      pySet_ofNat pl i _ hlen
    have hsetapps : pySet apps 0
        (Json.obj (dictSet af "prompts" (Json.arr (pl.set i
          (Json.obj (dictSet pf "content" (Json.arr (c.map Json.str)))))))) =
        apps.set 0 (Json.obj (dictSet af "prompts" (Json.arr (pl.set i
          (Json.obj (dictSet pf "content" (Json.arr (c.map Json.str)))))))) := by
      have h0 : (0 : Int) = ((0 : Nat) : Int) := rfl
      rw [h0, pySet_ofNat apps 0 _ happslen.1]
    have hlook1 : lookupField (dictSet f "APPS" (Json.arr (apps.set 0
        (Json.obj (dictSet af "prompts" (Json.arr (pl.set i
          (Json.obj (dictSet pf "content" (Json.arr (c.map Json.str))))))))))) "APPS" =
        some (Json.arr (apps.set 0 (Json.obj (dictSet af "prompts" (Json.arr (pl.set i
          (Json.obj (dictSet pf "content" (Json.arr (c.map Json.str)))))))))) :=
      lookupField_dictSet_self f "APPS" _
    have hidx : pyIndexGet (apps.set 0 (Json.obj (dictSet af "prompts" (Json.arr (pl.set i
        (Json.obj (dictSet pf "content" (Json.arr (c.map Json.str))))))))) 0 =
        some (Json.obj (dictSet af "prompts" (Json.arr (pl.set i
          (Json.obj (dictSet pf "content" (Json.arr (c.map Json.str)))))))) := by
      have h0 : (0 : Int) = ((0 : Nat) : Int) := rfl
      rw [h0, pyIndexGet_ofNat _ 0 (by rw [List.length_set]; exact happslen.1)]
      exact List.get?_set_eq_of_lt _ happslen.1
    have hlook2 : lookupField (dictSet af "prompts" (Json.arr (pl.set i
        (Json.obj (dictSet pf "content" (Json.arr (c.map Json.str))))))) "prompts" =
        some (Json.arr (pl.set i (Json.obj (dictSet pf "content"
          (Json.arr (c.map Json.str)))))) :=
      lookupField_dictSet_self af "prompts" _
    rw [hsetpl, hsetapps]
    simp only [promptListOf, hlook1, hidx, hlook2]
  · exact List.get?_set_ne _ pl (Nat.ne_of_lt hij)

theorem duplicate_names_resolve_first_witness :
    selected_index_of [Json.str "p", Json.str "p"] (Json.str "p") =
      some ((0 : Nat) : Int) :=
  (duplicate_names_resolve_first dupDoc
    [Json.obj [("name", Json.str "p"), ("content", Json.arr [Json.str "a"])],
     Json.obj [("name", Json.str "p"), ("content", Json.arr [Json.str "z"])]]
    [Json.str "p", Json.str "p"] 0 1 (Json.str "p")
    (Json.obj [("name", Json.str "p"), ("content", Json.arr [Json.str "a"])])
    ["b"] dupDocEdited
    (by decide) (by decide) (by decide) (by decide) (by decide)
    (fun k hk => absurd hk (Nat.not_lt_zero k))
    (by decide) (by decide) (by decide)).1
